import Mathlib

/-!
Shallow embedding of the core computation pipeline of
`simple_backtesting_strats.py`: daily returns, momentum and
moving-average crossover signals, lagged strategy returns, and the
summary statistics (cumulative return, mean, sample standard
deviation, Sharpe ratio).

Conventions of the embedding:
* The chronologically sorted closing prices are a `List α` over a
  linear ordered field (instantiated at `ℝ` in the theorems, with
  `Real.log`, `Real.exp`, `Real.sqrt` for the transcendental
  functions, which are passed as parameters to keep the definitions
  executable).
* A pandas column is a pointwise function `ℕ → Option α`: `none`
  models a NaN cell or a nonexistent row; `some x` a numeric cell.
* pandas comparisons on float series evaluate NaN comparisons to
  `False`; `(s > 0).astype(int)` therefore yields 0 on NaN cells.
  The signal definitions reproduce this via a match whose `none`
  branch yields `0`.
* `Series.dropna` is `List.filterMap id` on the materialized column;
  `iloc[-1]` on the empty series raises an IndexError, modelled by
  `Option`/`Except` below.
-/

namespace Backtest

variable {α : Type} [LinearOrderedField α]

/-- pandas `Series.pct_change(n)` on the close column: cell `i` holds
`close[i] / close[i-n] - 1` when row `i-n` exists (`n ≤ i`), NaN
otherwise. -/
def pctChange (n : ℕ) (closes : List α) (i : ℕ) : Option α :=
  if n ≤ i then
    (closes[i]?).bind fun c => (closes[i - n]?).map fun p => c / p - 1
  else none

/-- `df["return"] = df[CLOSE_COL].pct_change()`. -/
def ret (closes : List α) : ℕ → Option α :=
  pctChange 1 closes

/-- `df["log_return"] = np.log(df[CLOSE_COL] / df[CLOSE_COL].shift(1))`:
NaN at row 0 (shift produces NaN there), `ln (close[i]/close[i-1])`
for `i ≥ 1`. -/
def logReturn (ln : α → α) (closes : List α) (i : ℕ) : Option α :=
  if 1 ≤ i then
    (closes[i]?).bind fun c => (closes[i - 1]?).map fun p => ln (c / p)
  else none

/-- `df["momentum_5"] = df[CLOSE_COL].pct_change(5)`. -/
def momentum5 (closes : List α) : ℕ → Option α :=
  pctChange 5 closes

/-- `df["signal"] = (df["momentum_5"] > 0).astype(int)`: on every
existing row the comparison yields a boolean (NaN > 0 is False), cast
to the integer 0 or 1. -/
def signal (closes : List α) (i : ℕ) : Option α :=
  if i < closes.length then
    some (match momentum5 closes i with
      | some m => if 0 < m then 1 else 0
      | none => 0)
  else none

/-- pandas `Series.shift(1)` read pointwise: row `i` of the shifted
column holds the value of row `i - 1`, NaN at row 0. -/
def shiftOne (f : ℕ → Option α) (i : ℕ) : Option α :=
  if 1 ≤ i then f (i - 1) else none

/-- Pointwise product of two float columns; NaN propagates. -/
def omul (x y : Option α) : Option α :=
  x.bind fun a => y.map fun b => a * b

/-- `df["strategy_return"] = df["signal"].shift(1) * df["log_return"]`. -/
def strategyReturn (ln : α → α) (closes : List α) (i : ℕ) : Option α :=
  omul (shiftOne (signal closes) i) (logReturn ln closes i)

/-- `SHORT_WINDOW = 5`. -/
def SHORT_WINDOW : ℕ := 5

/-- `LONG_WINDOW = 20`. -/
def LONG_WINDOW : ℕ := 20

/-- pandas `Series.rolling(W).mean()` on the close column: NaN until
the window is fully populated (`i + 1 < W`), otherwise the arithmetic
mean of `close[i-W+1 .. i]`. -/
def rollingMean (W : ℕ) (closes : List α) (i : ℕ) : Option α :=
  if W ≤ i + 1 ∧ i < closes.length then
    some (((closes.drop (i + 1 - W)).take W).sum / (W : α))
  else none

/-- `df["ma_short"] = df[CLOSE_COL].rolling(SHORT_WINDOW).mean()`. -/
def maShort (closes : List α) : ℕ → Option α :=
  rollingMean SHORT_WINDOW closes

/-- `df["ma_long"] = df[CLOSE_COL].rolling(LONG_WINDOW).mean()`. -/
def maLong (closes : List α) : ℕ → Option α :=
  rollingMean LONG_WINDOW closes

/-- `df["signal_ma"] = (df["ma_short"] > df["ma_long"]).astype(int)`:
on every existing row, 1 when both moving averages are numeric and
the short one is strictly greater, else 0 (a comparison with a NaN
operand is False). -/
def signalMA (closes : List α) (i : ℕ) : Option α :=
  if i < closes.length then
    some (match maShort closes i, maLong closes i with
      | some s, some l => if l < s then 1 else 0
      | _, _ => 0)
  else none

/-- `df["strategy_ma"] = df["signal_ma"].shift(1) * df["log_return"]`. -/
def strategyReturnMA (ln : α → α) (closes : List α) (i : ℕ) : Option α :=
  omul (shiftOne (signalMA closes) i) (logReturn ln closes i)

/-- Materialize a pointwise column of a frame with `n` rows as the
list of its cells. -/
def toSeries (n : ℕ) (f : ℕ → Option α) : List (Option α) :=
  (List.range n).map f

/-- `Series.dropna()`: keep the numeric cells in order. -/
def dropna (s : List (Option α)) : List α :=
  s.filterMap id

/-- `Series.cumsum()` with running accumulator. -/
def cumsumFrom (acc : α) : List α → List α
  | [] => []
  | x :: xs => (acc + x) :: cumsumFrom (acc + x) xs

/-- `Series.cumsum()`. -/
def cumsum (xs : List α) : List α :=
  cumsumFrom 0 xs

/-- `np.exp(strategy.cumsum()).iloc[-1] - 1`; `none` models the
IndexError that `iloc[-1]` raises on an empty series. -/
def cumulativeReturn (expf : α → α) (strategy : List α) : Option α :=
  ((cumsum strategy).map expf).getLast?.map fun x => x - 1

/-- `strategy.mean()`: NaN on the empty series. -/
def mean (xs : List α) : Option α :=
  if xs.length = 0 then none else some (xs.sum / (xs.length : α))

/-- `strategy.std()`: sample standard deviation (`ddof = 1`), NaN when
fewer than two observations. -/
def sampleStd (sqrtf : α → α) (xs : List α) : Option α :=
  if 2 ≤ xs.length then
    some (sqrtf (((xs.map fun x => (x - xs.sum / (xs.length : α)) ^ 2).sum) /
      ((xs.length : α) - 1)))
  else none

/-- `sharpe = mean_daily / vol_daily * np.sqrt(252) if vol_daily != 0
else np.nan`.  A NaN volatility (`none`) passes the `!= 0` test in
Python but poisons the quotient, so the result is NaN either way. -/
def sharpe (sqrt252 : α) (sqrtf : α → α) (strategy : List α) : Option α :=
  match sampleStd sqrtf strategy with
  | some v => if v ≠ 0 then (mean strategy).map fun m => m / v * sqrt252 else none
  | none => none

/-- Kinds of Python exceptions distinguished by the model of the
evaluator. The source raises a bare `IndexError` (from `iloc[-1]` on
an empty series); `insufficientData` exists only so that statements
about a named `InsufficientDataError` can be expressed. -/
inductive EvalError where
  | indexError
  | insufficientData
deriving DecidableEq

/-- The summary statistics printed for one strategy. -/
structure Summary (α : Type) where
  cumulative : α
  meanDaily : Option α
  volDaily : Option α
  sharpeValue : Option α

/-- The momentum-strategy evaluator, lines 80-88 of the source: drop
the NaN strategy returns, then compute the four statistics.  The
first statistic indexes the compounded series with `iloc[-1]`, which
raises an IndexError when the filtered series is empty. -/
def evaluate (expf ln sqrtf : α → α) (sqrt252 : α) (closes : List α) :
    Except EvalError (Summary α) :=
  let strat := dropna (toSeries closes.length (strategyReturn ln closes))
  match cumulativeReturn expf strat with
  | none => .error .indexError
  | some cr => .ok ⟨cr, mean strat, sampleStd sqrtf strat, sharpe sqrt252 sqrtf strat⟩

/-- Chronological sorting of the fetched rows, `df = df.sort_index()`:
rows are (date, close) pairs ordered by date. -/
def sortByDate (rows : List (ℕ × α)) : List (ℕ × α) :=
  rows.insertionSort fun a b => a.1 ≤ b.1

/-- The close column of the sorted frame. -/
def pipelineCloses (rows : List (ℕ × α)) : List α :=
  (sortByDate rows).map Prod.snd

/-! ### Helper lemmas -/

lemma signal_of_lt_length (closes : List α) (i : ℕ) (hn : i < closes.length) :
    signal closes i =
      some (match momentum5 closes i with
        | some m => if 0 < m then 1 else 0
        | none => 0) := by
  simp [signal, hn]

lemma momentum5_warmup (closes : List α) (i : ℕ) (hi : i < 5) :
    momentum5 closes i = none := by
  simp [momentum5, pctChange, Nat.not_le.mpr hi]

lemma signal_warmup (closes : List α) (i : ℕ) (hi : i < 5) (hn : i < closes.length) :
    signal closes i = some 0 := by
  rw [signal_of_lt_length closes i hn, momentum5_warmup closes i hi]

lemma signal_isSome (closes : List α) (i : ℕ) (hn : i < closes.length) :
    ∃ s, signal closes i = some s := by
  rw [signal_of_lt_length closes i hn]
  exact ⟨_, rfl⟩

lemma rollingMean_warmup (W : ℕ) (closes : List α) (i : ℕ) (hi : i + 1 < W) :
    rollingMean W closes i = none := by
  have h : ¬ (W ≤ i + 1 ∧ i < closes.length) := fun hc => absurd hc.1 (Nat.not_le.mpr hi)
  rw [rollingMean, if_neg h]

lemma maLong_warmup (closes : List α) (i : ℕ) (hi : i + 1 < 20) :
    maLong closes i = none := by
  simp only [maLong]
  exact rollingMean_warmup LONG_WINDOW closes i hi

lemma signalMA_of_lt_length (closes : List α) (i : ℕ) (hn : i < closes.length) :
    signalMA closes i =
      some (match maShort closes i, maLong closes i with
        | some s, some l => if l < s then 1 else 0
        | _, _ => 0) := by
  simp [signalMA, hn]

lemma signalMA_isSome (closes : List α) (i : ℕ) (hn : i < closes.length) :
    ∃ s, signalMA closes i = some s := by
  rw [signalMA_of_lt_length closes i hn]
  exact ⟨_, rfl⟩

lemma logReturn_of_pos (ln : α → α) (closes : List α) (i : ℕ) (hi : 1 ≤ i)
    (hn : i < closes.length) :
    logReturn ln closes i =
      some (ln (closes.get ⟨i, hn⟩ / closes.get ⟨i - 1, Nat.lt_of_le_of_lt (Nat.sub_le i 1) hn⟩)) := by
  have h1 : i - 1 < closes.length := Nat.lt_of_le_of_lt (Nat.sub_le i 1) hn
  simp [logReturn, hi, List.getElem?_eq_getElem hn, List.getElem?_eq_getElem h1]

lemma strategyReturn_at_zero (ln : α → α) (closes : List α) :
    strategyReturn ln closes 0 = none := by
  simp [strategyReturn, shiftOne, omul]

lemma strategyReturnMA_at_zero (ln : α → α) (closes : List α) :
    strategyReturnMA ln closes 0 = none := by
  simp [strategyReturnMA, shiftOne, omul]

lemma strategyReturn_shift (ln : α → α) (closes : List α) (i : ℕ) (hi : 1 ≤ i) :
    strategyReturn ln closes i = omul (signal closes (i - 1)) (logReturn ln closes i) := by
  simp [strategyReturn, shiftOne, hi]

lemma strategyReturnMA_shift (ln : α → α) (closes : List α) (i : ℕ) (hi : 1 ≤ i) :
    strategyReturnMA ln closes i = omul (signalMA closes (i - 1)) (logReturn ln closes i) := by
  simp [strategyReturnMA, shiftOne, hi]

lemma strategyReturn_isSome (ln : α → α) (closes : List α) (i : ℕ) (hi : 1 ≤ i)
    (hn : i < closes.length) :
    ∃ s r, signal closes (i - 1) = some s ∧ logReturn ln closes i = some r ∧
      strategyReturn ln closes i = some (s * r) := by
  obtain ⟨s, hs⟩ := signal_isSome closes (i - 1) (Nat.lt_of_le_of_lt (Nat.sub_le i 1) hn)
  refine ⟨s, _, hs, logReturn_of_pos ln closes i hi hn, ?_⟩
  rw [strategyReturn_shift ln closes i hi, hs, logReturn_of_pos ln closes i hi hn]
  rfl

lemma strategyReturnMA_isSome (ln : α → α) (closes : List α) (i : ℕ) (hi : 1 ≤ i)
    (hn : i < closes.length) :
    ∃ s r, signalMA closes (i - 1) = some s ∧ logReturn ln closes i = some r ∧
      strategyReturnMA ln closes i = some (s * r) := by
  obtain ⟨s, hs⟩ := signalMA_isSome closes (i - 1) (Nat.lt_of_le_of_lt (Nat.sub_le i 1) hn)
  refine ⟨s, _, hs, logReturn_of_pos ln closes i hi hn, ?_⟩
  rw [strategyReturnMA_shift ln closes i hi, hs, logReturn_of_pos ln closes i hi hn]
  rfl

lemma strategyReturn_warmup (ln : α → α) (closes : List α) (i : ℕ) (hi : 1 ≤ i)
    (h5 : i ≤ 5) (hn : i < closes.length) :
    strategyReturn ln closes i = some 0 := by
  have hs : signal closes (i - 1) = some 0 :=
    signal_warmup closes (i - 1) (by omega) (Nat.lt_of_le_of_lt (Nat.sub_le i 1) hn)
  rw [strategyReturn_shift ln closes i hi, hs, logReturn_of_pos ln closes i hi hn]
  simp [omul]

lemma strategyReturnMA_warmup (ln : α → α) (closes : List α) (i : ℕ) (hi : 1 ≤ i)
    (h20 : i ≤ 19) (hn : i < closes.length) :
    strategyReturnMA ln closes i = some 0 := by
  have hlt : i - 1 < closes.length := Nat.lt_of_le_of_lt (Nat.sub_le i 1) hn
  have hs : signalMA closes (i - 1) = some 0 := by
    rw [signalMA_of_lt_length closes (i - 1) hlt, maLong_warmup closes (i - 1) (by omega)]
    cases maShort closes (i - 1) <;> rfl
  rw [strategyReturnMA_shift ln closes i hi, hs, logReturn_of_pos ln closes i hi hn]
  simp [omul]

lemma length_filterMap_of_isSome {β γ : Type} (f : β → Option γ) :
    ∀ l : List β, (∀ x ∈ l, (f x).isSome) → (l.filterMap f).length = l.length := by
  intro l hl
  induction l with
  | nil => rfl
  | cons x xs ih =>
    have hx : (f x).isSome := hl x (List.mem_cons_self x xs)
    obtain ⟨y, hy⟩ := Option.isSome_iff_exists.mp hx
    rw [List.filterMap_cons, hy]
    simp only [List.length_cons]
    rw [ih fun z hz => hl z (List.mem_cons_of_mem x hz)]

lemma dropna_toSeries_length (n : ℕ) (f : ℕ → Option α) (h0 : f 0 = none)
    (hs : ∀ i, 1 ≤ i → i < n → (f i).isSome) :
    (dropna (toSeries n f)).length = n - 1 := by
  unfold dropna toSeries
  rw [List.filterMap_map]
  cases n with
  | zero => rfl
  | succ m =>
    rw [List.range_succ_eq_map, List.filterMap_cons]
    simp only [Function.comp, id_eq, h0]
    rw [List.filterMap_map]
    have hys : ∀ x ∈ List.range m, ((fun i => f (i + 1)) x).isSome := by
      intro x hx
      have hxm := List.mem_range.mp hx
      exact hs (x + 1) (by omega) (by omega)
    show (List.filterMap (fun i => f (i + 1)) (List.range m)).length = m
    rw [length_filterMap_of_isSome _ _ hys, List.length_range]

lemma cumsumFrom_getLast? (l : List α) :
    ∀ acc : α, l ≠ [] → (cumsumFrom acc l).getLast? = some (acc + l.sum) := by
  induction l with
  | nil => intro acc h; exact absurd rfl h
  | cons x xs ih =>
    intro acc _
    cases xs with
    | nil => simp [cumsumFrom]
    | cons y ys =>
      have htail := ih (acc + x) (List.cons_ne_nil y ys)
      have hunfold : cumsumFrom acc (x :: y :: ys) =
          (acc + x) :: (acc + x + y) :: cumsumFrom (acc + x + y) ys := rfl
      have hunfold2 : cumsumFrom (acc + x) (y :: ys) =
          (acc + x + y) :: cumsumFrom (acc + x + y) ys := rfl
      rw [hunfold, List.getLast?_cons_cons, ← hunfold2, htail]
      simp [add_assoc]

lemma cumsum_getLast? (l : List α) (h : l ≠ []) :
    (cumsum l).getLast? = some l.sum := by
  rw [cumsum, cumsumFrom_getLast? l 0 h, zero_add]

lemma exp_list_sum (l : List ℝ) : Real.exp l.sum = (l.map Real.exp).prod := by
  induction l with
  | nil => simp [Real.exp_zero]
  | cons x xs ih => simp [Real.exp_add, ih]

/-! ### Claim theorems -/

/-- C1: for every price series and index `i ≥ 1`, the strategy-return
cell is the product of the one-period-lagged signal and the log
return, `strategyReturn[i] = signal[i-1] * logReturn[i]`, for both
the momentum strategy and the moving-average crossover strategy; on
rows inside the frame both operands are numeric and the product is
their literal multiplication. -/
theorem momentum_and_ma_lag_signal_by_one (closes : List ℝ) (i : ℕ) (hi : 1 ≤ i)
    (hn : i < closes.length) :
    strategyReturn Real.log closes i =
        omul (signal closes (i - 1)) (logReturn Real.log closes i) ∧
    strategyReturnMA Real.log closes i =
        omul (signalMA closes (i - 1)) (logReturn Real.log closes i) ∧
    (∃ s r, signal closes (i - 1) = some s ∧ logReturn Real.log closes i = some r ∧
      strategyReturn Real.log closes i = some (s * r)) ∧
    (∃ s r, signalMA closes (i - 1) = some s ∧ logReturn Real.log closes i = some r ∧
      strategyReturnMA Real.log closes i = some (s * r)) :=
  ⟨strategyReturn_shift Real.log closes i hi,
   strategyReturnMA_shift Real.log closes i hi,
   strategyReturn_isSome Real.log closes i hi hn,
   strategyReturnMA_isSome Real.log closes i hi hn⟩

/-- Concrete instantiation of the lag theorem at a six-day price
series and index 3. -/
theorem momentum_and_ma_lag_signal_by_one_witness :
    (1 ≤ 3 ∧ 3 < ([1, 2, 3, 4, 5, 6] : List ℝ).length) ∧
    (strategyReturn Real.log [1, 2, 3, 4, 5, 6] 3 =
        omul (signal [1, 2, 3, 4, 5, 6] 2) (logReturn Real.log [1, 2, 3, 4, 5, 6] 3) ∧
    strategyReturnMA Real.log [1, 2, 3, 4, 5, 6] 3 =
        omul (signalMA [1, 2, 3, 4, 5, 6] 2) (logReturn Real.log [1, 2, 3, 4, 5, 6] 3) ∧
    (∃ s r, signal ([1, 2, 3, 4, 5, 6] : List ℝ) 2 = some s ∧
      logReturn Real.log [1, 2, 3, 4, 5, 6] 3 = some r ∧
      strategyReturn Real.log [1, 2, 3, 4, 5, 6] 3 = some (s * r)) ∧
    (∃ s r, signalMA ([1, 2, 3, 4, 5, 6] : List ℝ) 2 = some s ∧
      logReturn Real.log [1, 2, 3, 4, 5, 6] 3 = some r ∧
      strategyReturnMA Real.log [1, 2, 3, 4, 5, 6] 3 = some (s * r))) :=
  ⟨⟨by decide, by decide⟩,
   momentum_and_ma_lag_signal_by_one [1, 2, 3, 4, 5, 6] 3 (by decide) (by decide)⟩

/-- C3 counterexample: on any price list the momentum signal during
the lookback warm-up is the numeric value 0, not an undefined cell as
the claim states; here at indices 0 and 4 of a six-day series. -/
theorem momentum_signal_warmup_is_zero_not_undefined :
    signal ([1, 1, 1, 1, 1, 1] : List ℝ) 0 = some 0 ∧
    signal ([1, 1, 1, 1, 1, 1] : List ℝ) 4 = some 0 ∧
    signal ([1, 1, 1, 1, 1, 1] : List ℝ) 0 ≠ none := by
  refine ⟨rfl, rfl, ?_⟩
  intro h
  exact Option.noConfusion h

/-- C3 amended: for the code's lookback window `W = 5`, the momentum
signal at an in-frame index `i ≥ 5` is 1 when `close[i]/close[i-5] - 1`
is strictly positive and 0 otherwise (momentum exactly 0 yields 0),
while for `i < 5` the signal is the defined value 0 (pandas evaluates
the comparison `NaN > 0` to `False`), not an undefined cell. -/
theorem momentum_signal_characterization (closes : List ℝ) (i : ℕ)
    (hn : i < closes.length) :
    (i < 5 → signal closes i = some 0) ∧
    (5 ≤ i →
      signal closes i =
        some (if 0 < closes.get ⟨i, hn⟩ /
            closes.get ⟨i - 5, Nat.lt_of_le_of_lt (Nat.sub_le i 5) hn⟩ - 1
          then 1 else 0)) ∧
    (momentum5 closes i = some 0 → signal closes i = some 0) := by
  refine ⟨fun h5 => signal_warmup closes i h5 hn, fun h5 => ?_, fun hm => ?_⟩
  · have hs : i - 5 < closes.length := Nat.lt_of_le_of_lt (Nat.sub_le i 5) hn
    have hmom : momentum5 closes i =
        some (closes.get ⟨i, hn⟩ / closes.get ⟨i - 5, hs⟩ - 1) := by
      simp [momentum5, pctChange, h5, List.getElem?_eq_getElem hn,
        List.getElem?_eq_getElem hs]
    rw [signal_of_lt_length closes i hn, hmom]
  · rw [signal_of_lt_length closes i hn, hm]
    simp

/-- Concrete instantiation of the momentum-signal characterization at
a rising six-day price series and index 5. -/
theorem momentum_signal_characterization_witness :
    5 < ([1, 2, 3, 4, 5, 32] : List ℝ).length ∧
    signal ([1, 2, 3, 4, 5, 32] : List ℝ) 2 = some 0 := by
  have h := momentum_signal_characterization ([1, 2, 3, 4, 5, 32] : List ℝ) 2 (by decide)
  exact ⟨by decide, h.1 (by decide)⟩

/-- C4 counterexample: at index 0 of a one-day series both moving
averages are undefined, yet the crossover signal is the numeric value
0, not an undefined cell as the claim states. -/
theorem ma_signal_warmup_is_zero_not_undefined :
    maShort ([1] : List ℝ) 0 = none ∧
    maLong ([1] : List ℝ) 0 = none ∧
    signalMA ([1] : List ℝ) 0 = some 0 ∧
    signalMA ([1] : List ℝ) 0 ≠ none := by
  refine ⟨rfl, rfl, rfl, ?_⟩
  intro h
  exact Option.noConfusion h

/-- C4 amended: each rolling mean is undefined exactly until its
window is fully populated, and on a filled window it is the
arithmetic mean of the window's closes; the crossover signal on a row
where both moving averages are numeric is 1 when the short one is
strictly greater and 0 otherwise (ties give 0); on a row where either
moving average is undefined the signal is the defined value 0 (pandas
evaluates a comparison with NaN to `False`), not an undefined cell. -/
theorem ma_crossover_characterization (closes : List ℝ) (i : ℕ)
    (hn : i < closes.length) :
    (∀ W : ℕ, (rollingMean W closes i = none ↔ i + 1 < W)) ∧
    (∀ W : ℕ, W ≤ i + 1 →
      rollingMean W closes i =
        some (((closes.drop (i + 1 - W)).take W).sum / (W : ℝ))) ∧
    (∀ s l, maShort closes i = some s → maLong closes i = some l →
      signalMA closes i = some (if l < s then 1 else 0)) ∧
    (∀ v, maShort closes i = some v → maLong closes i = some v →
      signalMA closes i = some 0) ∧
    ((maShort closes i = none ∨ maLong closes i = none) →
      signalMA closes i = some 0) := by
  have hval : ∀ W : ℕ, W ≤ i + 1 →
      rollingMean W closes i =
        some (((closes.drop (i + 1 - W)).take W).sum / (W : ℝ)) := by
    intro W hW
    rw [rollingMean, if_pos ⟨hW, hn⟩]
  refine ⟨fun W => ⟨fun hnone => ?_, fun hW => rollingMean_warmup W closes i hW⟩,
    hval, fun s l hs hl => ?_, fun v hs hl => ?_, fun hor => ?_⟩
  · by_contra hcon
    rw [hval W (by omega)] at hnone
    exact Option.noConfusion hnone
  · rw [signalMA_of_lt_length closes i hn, hs, hl]
  · rw [signalMA_of_lt_length closes i hn, hs, hl]
    simp
  · rw [signalMA_of_lt_length closes i hn]
    rcases hor with h | h
    · rw [h]
    · rw [h]
      cases maShort closes i <;> rfl

/-- Concrete instantiation of the crossover characterization at a
one-day series and index 0. -/
theorem ma_crossover_characterization_witness :
    0 < ([1] : List ℝ).length ∧
    (maShort ([1] : List ℝ) 0 = none ∨ maLong ([1] : List ℝ) 0 = none) ∧
    signalMA ([1] : List ℝ) 0 = some 0 := by
  have h := ma_crossover_characterization ([1] : List ℝ) 0 (by decide)
  exact ⟨by decide, Or.inl rfl, h.2.2.2.2 (Or.inl rfl)⟩

/-- C2 counterexample: on the seven-day price series
`[1, 2, 4, 8, 16, 32, 64]` with momentum window 5, the entries at
warm-up indices 1 through 5 are NOT dropped: `dropna` keeps six of the
seven strategy-return cells (only index 0 goes), and the mean
statistic is `log 2 / 6`, a different number from the `log 2` it
would be if the five warm-up entries did not contribute. -/
theorem warmup_entries_survive_dropna :
    (dropna (toSeries ([1, 2, 4, 8, 16, 32, 64] : List ℝ).length
        (strategyReturn Real.log [1, 2, 4, 8, 16, 32, 64]))).length = 6 ∧
    mean (dropna (toSeries ([1, 2, 4, 8, 16, 32, 64] : List ℝ).length
        (strategyReturn Real.log [1, 2, 4, 8, 16, 32, 64]))) =
      some (Real.log 2 / 6) ∧
    Real.log 2 / 6 ≠ Real.log 2 := by
  have hser : toSeries ([1, 2, 4, 8, 16, 32, 64] : List ℝ).length
      (strategyReturn Real.log [1, 2, 4, 8, 16, 32, 64]) =
      [none, some 0, some 0, some 0, some 0, some 0, some (Real.log 2)] := by
    have h0 : strategyReturn Real.log ([1, 2, 4, 8, 16, 32, 64] : List ℝ) 0 = none :=
      strategyReturn_at_zero _ _
    have hw : ∀ i, 1 ≤ i → i ≤ 5 →
        strategyReturn Real.log ([1, 2, 4, 8, 16, 32, 64] : List ℝ) i = some 0 :=
      fun i hi h5 => strategyReturn_warmup _ _ i hi h5 (by simp; omega)
    have hmom : momentum5 ([1, 2, 4, 8, 16, 32, 64] : List ℝ) 5 =
        some ((32 : ℝ) / 1 - 1) := rfl
    have hsig : signal ([1, 2, 4, 8, 16, 32, 64] : List ℝ) 5 = some 1 := by
      rw [signal_of_lt_length _ 5 (by decide), hmom]
      norm_num
    have hlog : logReturn Real.log ([1, 2, 4, 8, 16, 32, 64] : List ℝ) 6 =
        some (Real.log 2) := by
      rw [show logReturn Real.log ([1, 2, 4, 8, 16, 32, 64] : List ℝ) 6 =
            some (Real.log ((64 : ℝ) / 32)) from rfl]
      norm_num
    have h6 : strategyReturn Real.log ([1, 2, 4, 8, 16, 32, 64] : List ℝ) 6 =
        some (Real.log 2) := by
      rw [strategyReturn_shift _ _ 6 (by decide)]
      rw [show (6 : ℕ) - 1 = 5 from rfl, hsig, hlog]
      simp [omul]
    show List.map (strategyReturn Real.log ([1, 2, 4, 8, 16, 32, 64] : List ℝ))
        (List.range 7) = _
    rw [show List.range 7 = [0, 1, 2, 3, 4, 5, 6] from by decide]
    simp only [List.map_cons, List.map_nil]
    rw [h0, hw 1 (by decide) (by decide), hw 2 (by decide) (by decide),
      hw 3 (by decide) (by decide), hw 4 (by decide) (by decide),
      hw 5 (by decide) (by decide), h6]
  rw [hser]
  have hdrop : dropna ([none, some 0, some 0, some 0, some 0, some 0,
      some (Real.log 2)] : List (Option ℝ)) = [0, 0, 0, 0, 0, Real.log 2] := by
    simp [dropna]
  rw [hdrop]
  have hlogpos : Real.log 2 ≠ 0 := ne_of_gt (Real.log_pos one_lt_two)
  refine ⟨rfl, ?_, ?_⟩
  · rw [mean]
    norm_num
  · intro hcon
    have hz : Real.log 2 = 0 := by linarith [hcon]
    exact hlogpos hz

/-- C2 amended: the evaluator drops exactly the strategy-return cells
that are NaN, which is only index 0 (there the shifted signal and the
log return are both NaN).  During the signal warm-up (indices 1
through 5 for the momentum window, 1 through 19 for the long moving
average) the lagged signal is the defined value 0, because pandas
evaluates a comparison against NaN to `False`; those entries are
retained as zeros and do contribute to the summary statistics.  For a
frame of `n` rows the filtered series of either strategy has exactly
`n - 1` entries. -/
theorem dropna_drops_only_index_zero (closes : List ℝ) :
    strategyReturn Real.log closes 0 = none ∧
    strategyReturnMA Real.log closes 0 = none ∧
    (∀ i, 1 ≤ i → i < closes.length → (strategyReturn Real.log closes i).isSome) ∧
    (∀ i, 1 ≤ i → i < closes.length → (strategyReturnMA Real.log closes i).isSome) ∧
    (∀ i, 1 ≤ i → i ≤ 5 → i < closes.length →
      strategyReturn Real.log closes i = some 0) ∧
    (∀ i, 1 ≤ i → i ≤ 19 → i < closes.length →
      strategyReturnMA Real.log closes i = some 0) ∧
    (dropna (toSeries closes.length (strategyReturn Real.log closes))).length =
      closes.length - 1 ∧
    (dropna (toSeries closes.length (strategyReturnMA Real.log closes))).length =
      closes.length - 1 := by
  have hsome : ∀ i, 1 ≤ i → i < closes.length →
      (strategyReturn Real.log closes i).isSome := by
    intro i hi hn
    obtain ⟨s, r, _, _, h⟩ := strategyReturn_isSome Real.log closes i hi hn
    rw [h]; rfl
  have hsomeMA : ∀ i, 1 ≤ i → i < closes.length →
      (strategyReturnMA Real.log closes i).isSome := by
    intro i hi hn
    obtain ⟨s, r, _, _, h⟩ := strategyReturnMA_isSome Real.log closes i hi hn
    rw [h]; rfl
  refine ⟨strategyReturn_at_zero _ _, strategyReturnMA_at_zero _ _, hsome, hsomeMA,
    fun i hi h5 hn => strategyReturn_warmup _ _ i hi h5 hn,
    fun i hi h19 hn => strategyReturnMA_warmup _ _ i hi h19 hn, ?_, ?_⟩
  · exact dropna_toSeries_length _ _ (strategyReturn_at_zero _ _) hsome
  · exact dropna_toSeries_length _ _ (strategyReturnMA_at_zero _ _) hsomeMA

/-- Concrete instantiation of the dropping behaviour on a seven-day
constant price series: index 0 is NaN, warm-up index 3 holds the
value 0, and the filtered series has six entries. -/
theorem dropna_drops_only_index_zero_witness :
    strategyReturn Real.log ([1, 1, 1, 1, 1, 1, 1] : List ℝ) 0 = none ∧
    (1 ≤ 3 ∧ 3 ≤ 5 ∧ 3 < ([1, 1, 1, 1, 1, 1, 1] : List ℝ).length) ∧
    strategyReturn Real.log ([1, 1, 1, 1, 1, 1, 1] : List ℝ) 3 = some 0 ∧
    (dropna (toSeries ([1, 1, 1, 1, 1, 1, 1] : List ℝ).length
        (strategyReturn Real.log [1, 1, 1, 1, 1, 1, 1]))).length =
      ([1, 1, 1, 1, 1, 1, 1] : List ℝ).length - 1 := by
  have h := dropna_drops_only_index_zero ([1, 1, 1, 1, 1, 1, 1] : List ℝ)
  exact ⟨h.1, ⟨by decide, by decide, by decide⟩,
    h.2.2.2.2.1 3 (by decide) (by decide) (by decide), h.2.2.2.2.2.2.1⟩

/-- C5: whenever the sample standard deviation of the filtered
strategy returns is a number `v`, the Sharpe ratio is
`mean / v * sqrt 252` when `v ≠ 0`, and when `v = 0` it is the
explicit no-value `none` — not an error value of any kind and not the
number zero. -/
theorem sharpe_formula_and_zero_volatility (strategy : List ℝ) (hne : strategy ≠ [])
    (v : ℝ) (hv : sampleStd Real.sqrt strategy = some v) :
    (v ≠ 0 → ∃ m, mean strategy = some m ∧
      sharpe (Real.sqrt 252) Real.sqrt strategy = some (m / v * Real.sqrt 252)) ∧
    (v = 0 → sharpe (Real.sqrt 252) Real.sqrt strategy = none) ∧
    (v = 0 → sharpe (Real.sqrt 252) Real.sqrt strategy ≠ some 0) := by
  have hsh : sharpe (Real.sqrt 252) Real.sqrt strategy =
      if v ≠ 0 then (mean strategy).map (fun m => m / v * Real.sqrt 252) else none := by
    unfold sharpe
    rw [hv]
  have hlen : strategy.length ≠ 0 := fun h => hne (List.length_eq_zero.mp h)
  have hmean : mean strategy = some (strategy.sum / (strategy.length : ℝ)) := by
    rw [mean, if_neg hlen]
  refine ⟨fun hv0 => ⟨strategy.sum / (strategy.length : ℝ), hmean, ?_⟩,
    fun hv0 => ?_, fun hv0 => ?_⟩
  · rw [hsh, if_pos hv0, hmean]
    rfl
  · rw [hsh, if_neg (fun h => h hv0)]
  · rw [hsh, if_neg (fun h => h hv0)]
    intro h
    exact Option.noConfusion h

/-- Concrete instantiation of the Sharpe behaviour on the constant
filtered series `[0, 0]`, whose sample standard deviation is 0: the
Sharpe ratio is the no-value marker. -/
theorem sharpe_formula_and_zero_volatility_witness :
    ([0, 0] : List ℝ) ≠ [] ∧
    sampleStd Real.sqrt ([0, 0] : List ℝ) = some 0 ∧
    sharpe (Real.sqrt 252) Real.sqrt ([0, 0] : List ℝ) = none := by
  have hne : ([0, 0] : List ℝ) ≠ [] := List.cons_ne_nil 0 [0]
  have hv : sampleStd Real.sqrt ([0, 0] : List ℝ) = some 0 := by
    simp [sampleStd, pow_two, Real.sqrt_zero]
  exact ⟨hne, hv, (sharpe_formula_and_zero_volatility ([0, 0] : List ℝ) hne 0 hv).2.1 rfl⟩

/-- C6: for every non-empty filtered strategy-return series, the
reported cumulative return — the last element of
`exp` applied to the running sums, minus one — equals
`exp (sum of the series) - 1`, and that value equals the direct
entry-by-entry compounding `(product of exp of each entry) - 1`
exactly. -/
theorem cumulative_return_is_exp_sum (strategy : List ℝ) (hne : strategy ≠ []) :
    cumulativeReturn Real.exp strategy = some (Real.exp strategy.sum - 1) ∧
    Real.exp strategy.sum - 1 = (strategy.map Real.exp).prod - 1 := by
  constructor
  · rw [cumulativeReturn]
    have h1 : ((cumsum strategy).map Real.exp).getLast? =
        Option.map Real.exp (cumsum strategy).getLast? :=
      List.getLast?_map Real.exp (cumsum strategy)
    rw [h1, cumsum_getLast? strategy hne]
    rfl
  · rw [exp_list_sum]

/-- Concrete instantiation of the cumulative-return identity at the
one-entry series `[0]`. -/
theorem cumulative_return_is_exp_sum_witness :
    ([0] : List ℝ) ≠ [] ∧
    (cumulativeReturn Real.exp ([0] : List ℝ) =
        some (Real.exp (([0] : List ℝ)).sum - 1) ∧
      Real.exp (([0] : List ℝ)).sum - 1 = ((([0] : List ℝ)).map Real.exp).prod - 1) :=
  ⟨List.cons_ne_nil 0 [], cumulative_return_is_exp_sum [0] (List.cons_ne_nil 0 [])⟩

/-- C7 counterexample: on the one-day price series `[100]` the
filtered strategy-return series is empty and the evaluator fails with
the IndexError produced by indexing the empty compounded series with
`iloc[-1]` — not with an `InsufficientDataError`, which the source
never defines or raises. -/
theorem single_price_fails_with_index_error :
    dropna (toSeries ([100] : List ℝ).length (strategyReturn Real.log [100])) = [] ∧
    evaluate Real.exp Real.log Real.sqrt (Real.sqrt 252) ([100] : List ℝ) =
      Except.error EvalError.indexError ∧
    evaluate Real.exp Real.log Real.sqrt (Real.sqrt 252) ([100] : List ℝ) ≠
      Except.error EvalError.insufficientData := by
  refine ⟨rfl, rfl, ?_⟩
  intro hcon
  have hcon2 : (Except.error EvalError.indexError : Except EvalError (Summary ℝ)) =
      Except.error EvalError.insufficientData := hcon
  have h2 : EvalError.indexError = EvalError.insufficientData := by
    injection hcon2
  exact absurd h2 (by decide)

/-- C7 amended: whenever the filtered strategy-return series is
empty, the evaluator fails — `iloc[-1]` on the empty compounded
series raises an IndexError — and returns no summary statistics; the
failure is an uncaught IndexError, not a dedicated
`InsufficientDataError`. -/
theorem empty_filtered_series_raises_index_error (closes : List ℝ)
    (h : dropna (toSeries closes.length (strategyReturn Real.log closes)) = []) :
    evaluate Real.exp Real.log Real.sqrt (Real.sqrt 252) closes =
      Except.error EvalError.indexError := by
  simp only [evaluate, h]
  rfl

/-- Concrete instantiation of the empty-series failure at the one-day
price series `[7]`. -/
theorem empty_filtered_series_raises_index_error_witness :
    dropna (toSeries ([7] : List ℝ).length (strategyReturn Real.log [7])) = [] ∧
    evaluate Real.exp Real.log Real.sqrt (Real.sqrt 252) ([7] : List ℝ) =
      Except.error EvalError.indexError :=
  ⟨rfl, empty_filtered_series_raises_index_error [7] rfl⟩

/-- C8: on a price series with at least two points, the return
calculator yields `simpleReturn[i] = close[i]/close[i-1] - 1` and
`logReturn[i] = ln (close[i]/close[i-1])` for every in-frame index
`i ≥ 1`, and both cells at index 0 are undefined (NaN, not zero). -/
theorem daily_return_contract (closes : List ℝ) (hlen : 2 ≤ closes.length)
    (i : ℕ) (hi : 1 ≤ i) (hn : i < closes.length) :
    (∃ a b, closes[i]? = some a ∧ closes[i - 1]? = some b ∧
      ret closes i = some (a / b - 1) ∧
      logReturn Real.log closes i = some (Real.log (a / b))) ∧
    ret closes 0 = none ∧ logReturn Real.log closes 0 = none := by
  have h1 : i - 1 < closes.length := Nat.lt_of_le_of_lt (Nat.sub_le i 1) hn
  refine ⟨⟨closes.get ⟨i, hn⟩, closes.get ⟨i - 1, h1⟩,
    List.getElem?_eq_getElem hn, List.getElem?_eq_getElem h1, ?_, ?_⟩, ?_, ?_⟩
  · simp [ret, pctChange, hi, List.getElem?_eq_getElem hn, List.getElem?_eq_getElem h1]
  · simp [logReturn, hi, List.getElem?_eq_getElem hn, List.getElem?_eq_getElem h1]
  · simp [ret, pctChange]
  · simp [logReturn]

/-- Concrete instantiation of the return-calculator contract at a
two-day price series and index 1. -/
theorem daily_return_contract_witness :
    (2 ≤ ([1, 2] : List ℝ).length ∧ 1 ≤ 1 ∧ 1 < ([1, 2] : List ℝ).length) ∧
    ((∃ a b, ([1, 2] : List ℝ)[1]? = some a ∧ ([1, 2] : List ℝ)[0]? = some b ∧
      ret ([1, 2] : List ℝ) 1 = some (a / b - 1) ∧
      logReturn Real.log [1, 2] 1 = some (Real.log (a / b))) ∧
    ret ([1, 2] : List ℝ) 0 = none ∧ logReturn Real.log [1, 2] 0 = none) :=
  ⟨⟨by decide, by decide, by decide⟩,
   daily_return_contract [1, 2] (by decide) 1 (by decide) (by decide)⟩

/-- C9: noninterference of returns on signals.  Each signal value at
index `i` is a function only of the closing prices up to and
including day `i`: whenever two close lists agree on their first
`i + 1` entries, both strategies produce the same signal at `i`.  In
the embedding neither signal generator takes the return series as an
input at all, so altering `logReturn[i]` while holding the closes
fixed cannot change any signal value. -/
theorem signals_depend_only_on_past_closes (c₁ c₂ : List ℝ) (i : ℕ)
    (h₁ : i < c₁.length) (h₂ : i < c₂.length)
    (hpre : c₁.take (i + 1) = c₂.take (i + 1)) :
    signal c₁ i = signal c₂ i ∧ signalMA c₁ i = signalMA c₂ i := by
  have hget : ∀ j, j ≤ i → c₁[j]? = c₂[j]? := by
    intro j hj
    have e₁ : (c₁.take (i + 1))[j]? = c₁[j]? := by
      rw [List.getElem?_take, if_pos (Nat.lt_succ_of_le hj)]
    have e₂ : (c₂.take (i + 1))[j]? = c₂[j]? := by
      rw [List.getElem?_take, if_pos (Nat.lt_succ_of_le hj)]
    rw [← e₁, ← e₂, hpre]
  have hmom : momentum5 c₁ i = momentum5 c₂ i := by
    unfold momentum5 pctChange
    rw [hget i le_rfl, hget (i - 5) (Nat.sub_le i 5)]
  have hroll : ∀ W, rollingMean W c₁ i = rollingMean W c₂ i := by
    intro W
    rcases Nat.lt_or_ge (i + 1) W with hW | hW
    · rw [rollingMean_warmup W c₁ i hW, rollingMean_warmup W c₂ i hW]
    · have d₁ : (c₁.drop (i + 1 - W)).take W = (c₁.take (i + 1)).drop (i + 1 - W) := by
        rw [List.drop_take]
        congr 1
        omega
      have d₂ : (c₂.drop (i + 1 - W)).take W = (c₂.take (i + 1)).drop (i + 1 - W) := by
        rw [List.drop_take]
        congr 1
        omega
      have hseg : (c₁.drop (i + 1 - W)).take W = (c₂.drop (i + 1 - W)).take W := by
        rw [d₁, d₂, hpre]
      rw [rollingMean, rollingMean, if_pos ⟨hW, h₁⟩, if_pos ⟨hW, h₂⟩, hseg]
  constructor
  · rw [signal_of_lt_length c₁ i h₁, signal_of_lt_length c₂ i h₂, hmom]
  · rw [signalMA_of_lt_length c₁ i h₁, signalMA_of_lt_length c₂ i h₂]
    simp only [maShort, maLong, hroll SHORT_WINDOW, hroll LONG_WINDOW]

/-- Concrete instantiation of signal noninterference: two six-day
close lists that agree up to index 2 but differ afterwards give the
same signals at index 2. -/
theorem signals_depend_only_on_past_closes_witness :
    (2 < ([1, 2, 3, 4, 5, 6] : List ℝ).length ∧
      2 < ([1, 2, 3, 9, 9, 9] : List ℝ).length ∧
      ([1, 2, 3, 4, 5, 6] : List ℝ).take 3 = ([1, 2, 3, 9, 9, 9] : List ℝ).take 3) ∧
    (signal ([1, 2, 3, 4, 5, 6] : List ℝ) 2 = signal ([1, 2, 3, 9, 9, 9] : List ℝ) 2 ∧
      signalMA ([1, 2, 3, 4, 5, 6] : List ℝ) 2 = signalMA ([1, 2, 3, 9, 9, 9] : List ℝ) 2) :=
  ⟨⟨by decide, by decide, rfl⟩,
   signals_depend_only_on_past_closes [1, 2, 3, 4, 5, 6] [1, 2, 3, 9, 9, 9] 2
     (by decide) (by decide) rfl⟩

/-- C10: order-insensitivity of the pipeline.  The frame is sorted by
date (`df.sort_index()`) before anything is computed, so for inputs
with pairwise distinct dates every permutation of the rows yields the
same sorted frame, the same close column, the same signal series of
both strategies and the same evaluator output. -/
theorem pipeline_outputs_permutation_invariant (r₁ r₂ : List (ℕ × ℝ))
    (hperm : r₁.Perm r₂) (hdates : r₁.Pairwise fun a b => a.1 ≠ b.1) :
    sortByDate r₁ = sortByDate r₂ ∧
    pipelineCloses r₁ = pipelineCloses r₂ ∧
    toSeries (pipelineCloses r₁).length (signal (pipelineCloses r₁)) =
      toSeries (pipelineCloses r₂).length (signal (pipelineCloses r₂)) ∧
    toSeries (pipelineCloses r₁).length (signalMA (pipelineCloses r₁)) =
      toSeries (pipelineCloses r₂).length (signalMA (pipelineCloses r₂)) ∧
    evaluate Real.exp Real.log Real.sqrt (Real.sqrt 252) (pipelineCloses r₁) =
      evaluate Real.exp Real.log Real.sqrt (Real.sqrt 252) (pipelineCloses r₂) := by
  haveI : IsTotal (ℕ × ℝ) (fun a b => a.1 ≤ b.1) := ⟨fun a b => Nat.le_total a.1 b.1⟩
  haveI : IsTrans (ℕ × ℝ) (fun a b => a.1 ≤ b.1) :=
    ⟨fun _ _ _ h1 h2 => Nat.le_trans h1 h2⟩
  haveI : IsAntisymm (ℕ × ℝ) (fun a b => a.1 < b.1) :=
    ⟨fun _ _ h1 h2 => absurd h1 (Nat.lt_asymm h2)⟩
  have hs₁le : (sortByDate r₁).Pairwise (fun a b => a.1 ≤ b.1) :=
    List.sorted_insertionSort _ _
  have hs₂le : (sortByDate r₂).Pairwise (fun a b => a.1 ≤ b.1) :=
    List.sorted_insertionSort _ _
  have hp₁ : (sortByDate r₁).Perm r₁ := List.perm_insertionSort _ _
  have hp₂ : (sortByDate r₂).Perm r₂ := List.perm_insertionSort _ _
  have hd₁ : (sortByDate r₁).Pairwise (fun a b => a.1 ≠ b.1) :=
    (hp₁.pairwise_iff fun h => Ne.symm h).mpr hdates
  have hd₂ : (sortByDate r₂).Pairwise (fun a b => a.1 ≠ b.1) :=
    (hp₂.pairwise_iff fun h => Ne.symm h).mpr
      ((hperm.pairwise_iff fun h => Ne.symm h).mp hdates)
  have hlt₁ : (sortByDate r₁).Pairwise (fun a b => a.1 < b.1) :=
    (hs₁le.and hd₁).imp fun h => lt_of_le_of_ne h.1 h.2
  have hlt₂ : (sortByDate r₂).Pairwise (fun a b => a.1 < b.1) :=
    (hs₂le.and hd₂).imp fun h => lt_of_le_of_ne h.1 h.2
  have hpp : (sortByDate r₁).Perm (sortByDate r₂) := hp₁.trans (hperm.trans hp₂.symm)
  have hmain : sortByDate r₁ = sortByDate r₂ := List.eq_of_perm_of_sorted hpp hlt₁ hlt₂
  have hc : pipelineCloses r₁ = pipelineCloses r₂ := by
    rw [pipelineCloses, pipelineCloses, hmain]
  exact ⟨hmain, hc, by rw [hc], by rw [hc], by rw [hc]⟩

/-- Concrete instantiation of pipeline order-insensitivity: the two
orders of the rows dated 0 and 1 sort to the same frame and close
column. -/
theorem pipeline_outputs_permutation_invariant_witness :
    ([((1 : ℕ), (10 : ℝ)), (0, 20)] : List (ℕ × ℝ)).Perm [(0, 20), (1, 10)] ∧
    ([((1 : ℕ), (10 : ℝ)), (0, 20)] : List (ℕ × ℝ)).Pairwise (fun a b => a.1 ≠ b.1) ∧
    sortByDate [((1 : ℕ), (10 : ℝ)), (0, 20)] = sortByDate [(0, 20), (1, 10)] ∧
    pipelineCloses [((1 : ℕ), (10 : ℝ)), (0, 20)] = pipelineCloses [(0, 20), (1, 10)] := by
  have hperm : ([((1 : ℕ), (10 : ℝ)), (0, 20)] : List (ℕ × ℝ)).Perm [(0, 20), (1, 10)] :=
    List.Perm.swap _ _ _
  have hdates : ([((1 : ℕ), (10 : ℝ)), (0, 20)] : List (ℕ × ℝ)).Pairwise
      (fun a b => a.1 ≠ b.1) := by
    simp
  have h := pipeline_outputs_permutation_invariant _ _ hperm hdates
  exact ⟨hperm, hdates, h.1, h.2.1⟩

end Backtest
